import Mathlib

/-!
Shallow embedding of the Helix logging header (src/HelixDebug.h) of the
TerminalLogParser repository.

Strings are modelled as lists of characters (`Str`).  The wall-clock
timestamp, which the code reads from the system clock, is passed in as a
parameter.  The outcome of `std::vformat`, a standard-library call whose
parser is not reproduced here, is likewise passed in as an `Except` value
(`Except.error e` models a thrown `std::format_error` carrying `e`).
-/

set_option autoImplicit false
set_option linter.unusedVariables false

namespace HelixLog

abbrev Str := List Char

/-- Severity levels with the bit values assigned in the source enum
(`Level { TRACE = 1, DEBUG = 2, INFO = 4, WARN = 8, ERROR = 16,
HEADER = 32, FOOTER = 64, NOTICE = 128 }`). -/
inductive Level where
  | TRACE
  | DEBUG
  | INFO
  | WARN
  | ERROR
  | HEADER
  | FOOTER
  | NOTICE
deriving DecidableEq

def Level.toNat : Level → Nat
  | .TRACE => 1
  | .DEBUG => 2
  | .INFO => 4
  | .WARN => 8
  | .ERROR => 16
  | .HEADER => 32
  | .FOOTER => 64
  | .NOTICE => 128

/-- Source `has_level(flags, level)`: nonzero intersection of the bit masks. -/
def has_level (flags : Nat) (level : Level) : Bool :=
  (flags &&& level.toNat) != 0

/-- Loop of `tokenizeString`: scan for the delimiter accumulating the
current field (in reverse); a field is emitted at each delimiter, and the
final field is emitted only when it is nonempty (the source appends the
tail only when `start < input.length()`). -/
def tokGo (delim : Char) : Str → Str → List Str
  | [], acc => if acc = [] then [] else [acc.reverse]
  | c :: cs, acc =>
      if c = delim then acc.reverse :: tokGo delim cs []
      else tokGo delim cs (c :: acc)

/-- Source `tokenizeString(input, delim)`. -/
def tokenizeString (input : Str) (delim : Char) : List Str :=
  tokGo delim input []

/-- Fuelled form of the inner `while` of `tokenizeLineLength`; the fuel
only forces structural recursion and is never exhausted when it starts
at the string's length (each iteration removes `w ≥ 1` characters). -/
def chunkGo (w : Nat) : Nat → Str → List Str
  | 0, s => [s]
  | fuel + 1, s =>
      if 0 < w ∧ w ≤ s.length then s.take w :: chunkGo w fuel (s.drop w)
      else [s]

/-- Inner `while` of `tokenizeLineLength`: while the string is at least
`w` long, slice off a `w`-sized chunk; the final remainder (possibly
empty or shorter than `w`) is kept as its own segment.  The source loop
condition is `str.length() >= mMessageWidth` alone; the extra `0 < w`
conjunct makes the function total — the logger maintains
`1 ≤ mMessageWidth ≤ 512` (`setMessageWidth` replaces `0` by the default
`80`), so the two agree on every reachable width. -/
def chunkLine (w : Nat) (s : Str) : List Str :=
  chunkGo w s.length s

/-- `tokenizeLineLength(strings)` from the source: each already
newline-split segment is sliced into width-sized chunks in order. -/
def tokenizeLineLength (w : Nat) (strings : List Str) : List Str :=
  (strings.map (chunkLine w)).flatten

/-- Source `extractUnitName(line_info)`: the substring before the first `.`,
or the whole string when no `.` is present. -/
def extractUnitName : Str → Str
  | [] => []
  | c :: cs => if c = '.' then [] else c :: extractUnitName cs

/-- Character loop of `stripAnsiColors`, with a flag marking whether the
scan is inside an ANSI escape sequence (the source's inner `while
text[i] != 'm'` loop).  Outside a sequence, an ESC immediately followed
by `[` enters one; any other character — including a lone ESC — is
copied through.  Inside a sequence, characters are dropped up to and
including the first `m`; if the text ends first, the rest is dropped
(the source's index runs past the end). -/
def stripGo : Bool → Str → Str
  | _, [] => []
  | true, c :: cs => if c = 'm' then stripGo false cs else stripGo true cs
  | false, '\x1b' :: '[' :: rest2 => stripGo true rest2
  | false, c :: rest => c :: stripGo false rest

/-- Source `stripAnsiColors(text)`. -/
def stripAnsiColors (text : Str) : Str :=
  stripGo false text

/-- ANSI colour block `ESC [ code m txt ESC [ 0 m`, the shape of every
colour literal in the source (e.g. `"\x1b[37;1m TRACE\x1b[0m"`). -/
def colorWrap (code : Str) (txt : Str) : Str :=
  '\x1b' :: '[' :: code ++ 'm' :: txt ++ '\x1b' :: '[' :: '0' :: 'm' :: []

/-- Source `warnType(level, override_color)` reading `mIsColor`; the coloured
branch returns the source's colour literals, rebuilt via `colorWrap`. -/
def warnType (isColor : Bool) (level : Level) (override_color : Bool) : Str :=
  if !override_color && isColor then
    match level with
    | .TRACE => colorWrap ("37;1".data) (" TRACE".data)
    | .DEBUG => colorWrap ("36;1".data) (" DEBUG".data)
    | .INFO => colorWrap ("32;1".data) ("  INFO".data)
    | .WARN => colorWrap ("33;1".data) ("  WARN".data)
    | .ERROR => colorWrap ("31;1".data) (" ERROR".data)
    | .HEADER => colorWrap ("37;44;1".data) ("HEADER".data)
    | .FOOTER => colorWrap ("37;44;1".data) ("FOOTER".data)
    | .NOTICE => colorWrap ("35;5;208;1".data) ("NOTICE".data)
  else
    match level with
    | .TRACE => " TRACE".data
    | .DEBUG => " DEBUG".data
    | .INFO => "  INFO".data
    | .WARN => "  WARN".data
    | .ERROR => " ERROR".data
    | .HEADER => "HEADER".data
    | .FOOTER => "FOOTER".data
    | .NOTICE => "NOTICE".data

def spaces (n : Nat) : Str :=
  List.replicate n ' '

/-- Padding `std::left << std::setw(w)` applied to `s`: pad on the right with
spaces up to width `w`; no padding when `s` is already at least `w`. -/
def setwLeft (w : Nat) (s : Str) : Str :=
  s ++ spaces (w - s.length)

/-- The `std::fstream` member `mFlogStream`: which path is open, and the
stream's fail state. -/
structure FStream where
  openPath : Option Str
  failbit : Bool
deriving DecidableEq

/-- Snapshot of the logger's member state. -/
structure LoggerState where
  isColor : Bool
  isLogging : Bool
  logConsole : Bool
  logFile : Bool
  isDateTime : Bool
  messageWidth : Nat
  setLevel : Nat
  suppressedUnits : List Str
  flog : FStream
deriving DecidableEq

/-- Banner test of `log()`: `(level & HEADER) == HEADER ||
(level & FOOTER) == FOOTER || (level & NOTICE) == NOTICE`. -/
def isBannerLevel (level : Level) : Bool :=
  ((level.toNat &&& 32) == 32) || ((level.toNat &&& 64) == 64) ||
    ((level.toNat &&& 128) == 128)

/-- One line of the normal (non-banner) path:
`'[' ts "][" lvl ']' (i == 0 ? ": " : "> ") setw(tok) "| " line_info`. -/
def normalLine (w : Nat) (ts lvl : Str) (i : Nat) (tok : Str) (line_info : Str) : Str :=
  ("[".data) ++ ts ++ ("][".data) ++ lvl ++ ("]".data) ++
    (if i = 0 then (": ".data) else ("> ".data)) ++
    setwLeft w tok ++ ("| ".data) ++ line_info

/-- One line of the banner (HEADER/FOOTER/NOTICE) path:
`'[' ts "][" lvl "]: " body "| " line_info`. -/
def bannerLine (ts lvl body line_info : Str) : Str :=
  ("[".data) ++ ts ++ ("][".data) ++ lvl ++ ("]: ".data) ++
    body ++ ("| ".data) ++ line_info

/-- Source `hxLogger::log(message, level, line_info)`: the pair of console
lines and file lines written by one call, with the timestamp string `ts`
passed in.  Follows the source: filter, suppression lookup, then either
the banner path (single line per enabled sink) or the normal path
(newline split, width wrap, one line per token per enabled sink). -/
def logOutput (s : LoggerState) (ts msg : Str) (level : Level) (line_info : Str) :
    List Str × List Str :=
  let should_log := s.isLogging && has_level s.setLevel level && (s.logFile || s.logConsole)
  if !should_log then ([], [])
  else
    let unit := extractUnitName line_info
    if unit ∈ s.suppressedUnits then ([], [])
    else
      let log_to_console := s.logConsole
      let log_to_file := s.logFile && s.flog.openPath.isSome
      let level_string := warnType s.isColor level false
      let level_string_nocolor := warnType s.isColor level true
      if isBannerLevel level then
        let clean_message := stripAnsiColors msg
        let padded_message := msg ++ spaces (s.messageWidth - clean_message.length)
        ((if log_to_console then
            [bannerLine ts (if s.isColor then level_string else level_string_nocolor)
              padded_message line_info]
          else []),
         (if log_to_file then
            [bannerLine ts level_string_nocolor (setwLeft s.messageWidth clean_message) line_info]
          else []))
      else
        let tokens := tokenizeLineLength s.messageWidth (tokenizeString msg '\n')
        ((if log_to_console then
            tokens.enum.map (fun p =>
              normalLine s.messageWidth ts
                (if s.isColor then level_string else level_string_nocolor) p.1 p.2 line_info)
          else []),
         (if log_to_file then
            tokens.enum.map (fun p =>
              normalLine s.messageWidth ts level_string_nocolor p.1 p.2 line_info)
          else []))

/-- Source `isLogLevelEnabled(flag)`: reads only the level mask, not the master
`mIsLogging` flag. -/
def isLogLevelEnabled (s : LoggerState) (flag : Level) : Bool :=
  has_level s.setLevel flag

/-- Source `turnDebugOn(log_flags)`: a no-op when already logging, otherwise
enables console logging and installs the mask. -/
def turnDebugOn (s : LoggerState) (log_flags : Nat) : LoggerState :=
  if s.isLogging then s
  else { s with logConsole := true, isLogging := true, setLevel := log_flags }

/-- Source `turnDebugOff()`. -/
def turnDebugOff (s : LoggerState) : LoggerState :=
  { s with isLogging := false }

/-- Source `suppressUnit(unit)`, an `std::unordered_set::insert`. -/
def suppressUnit (s : LoggerState) (unit : Str) : LoggerState :=
  { s with suppressedUnits := s.suppressedUnits.insert unit }

/-- Source `unsuppressUnit(unit)`, an `std::unordered_set::erase`. -/
def unsuppressUnit (s : LoggerState) (unit : Str) : LoggerState :=
  { s with suppressedUnits := s.suppressedUnits.erase unit }

/-- Model of `std::fstream::open(path, std::ios::out)`: per the C++ standard,
`basic_filebuf::open` fails when the stream already has an open file, and
the stream then sets `failbit` without touching the old file; otherwise
the open succeeds or fails with the OS (`osOk`), truncating on success. -/
def fstreamOpen (fs : FStream) (path : Str) (osOk : Bool) : FStream :=
  if fs.openPath.isSome then { fs with failbit := true }
  else if osOk then { openPath := some path, failbit := false }
  else { fs with failbit := true }

/-- Source `configureLogFile(filename)`: opens the stream, sets `mLogFile` to
`is_open()`, and returns it. -/
def configureLogFile (s : LoggerState) (path : Str) (osOk : Bool) : LoggerState × Bool :=
  let fs := fstreamOpen s.flog path osOk
  let lf := fs.openPath.isSome
  ({ s with flog := fs, logFile := lf }, lf)

/-- Banner string built by `header(...)` when `HEADER` is enabled:
text budget `40 - 8*2 = 24`, centred between a left run of `>` when the
message is short enough, otherwise the minimal `">>>>>>>> " + message`. -/
def headerFormatted (message : Str) : Str :=
  let text_space : Nat := 40 - 8 * 2
  if message.length > text_space - 2 then
    colorWrap ("32;1".data) ((">>>>>>>> ".data) ++ message)
  else
    let padding := (text_space - message.length) / 2
    colorWrap ("32;1".data)
      (List.replicate 8 '>' ++ spaces padding ++ message ++
        spaces (text_space - message.length - padding))

/-- Banner string built by `footer(...)` when `FOOTER` is enabled. -/
def footerFormatted (message : Str) : Str :=
  let text_space : Nat := 40 - 8 * 2
  if message.length > text_space - 2 then
    colorWrap ("94;1".data) (("<<<<<<<< ".data) ++ message)
  else
    let padding := (text_space - message.length) / 2
    colorWrap ("94;1".data)
      (List.replicate 8 '<' ++ spaces padding ++ message ++
        spaces (text_space - message.length - padding))

/-- Banner string built by `notice(...)` when `NOTICE` is enabled; unlike
the other two, both its branches append a trailing run of `#`. -/
def noticeFormatted (message : Str) : Str :=
  let text_space : Nat := 40 - 8 * 2
  if message.length > text_space - 2 then
    colorWrap ("38;5;208;1".data) (("######## ".data) ++ message ++ ("########".data))
  else
    let padding := (text_space - message.length) / 2
    colorWrap ("38;5;208;1".data)
      (List.replicate 8 '#' ++ spaces padding ++ message ++
        spaces (text_space - message.length - padding) ++ List.replicate 8 '#')

/-- One call into the engine: arguments of `hxLogger::log`. -/
structure LogCall where
  message : Str
  level : Level
  line_info : Str
deriving DecidableEq

/-- Source `log_fmt(level, loc, ...)`: the engine calls made.  The outcome of
`std::vformat` is passed in; the `catch (const std::exception&)` branch
converts a throw into one ERROR call carrying the description. -/
def log_fmt_calls (level : Level) (loc : Str) (fmtResult : Except Str Str) : List LogCall :=
  match fmtResult with
  | .ok m => [⟨m, level, loc⟩]
  | .error e => [⟨("Log formatting error: ".data) ++ e, Level.ERROR, loc⟩]

/-- Source `trace(...)`: under `if constexpr(is_debug_build)`; forwards to
`log_fmt` at `TRACE`. -/
def trace_calls (isDebugBuild : Bool) (loc : Str) (fmtResult : Except Str Str) : List LogCall :=
  if isDebugBuild then log_fmt_calls Level.TRACE loc fmtResult else []

/-- Source `debug(...)`: under `if constexpr(is_debug_build)`; forwards to
`log_fmt` at `DEBUG`. -/
def debug_calls (isDebugBuild : Bool) (loc : Str) (fmtResult : Except Str Str) : List LogCall :=
  if isDebugBuild then log_fmt_calls Level.DEBUG loc fmtResult else []

/-- Source `info(...)`: forwards to `log_fmt` at `INFO`. -/
def info_calls (loc : Str) (fmtResult : Except Str Str) : List LogCall :=
  log_fmt_calls Level.INFO loc fmtResult

/-- Source `warn(...)`: forwards to `log_fmt` at `WARN`. -/
def warn_calls (loc : Str) (fmtResult : Except Str Str) : List LogCall :=
  log_fmt_calls Level.WARN loc fmtResult

/-- Source `error(...)`: forwards to `log_fmt` at `ERROR`. -/
def error_calls (loc : Str) (fmtResult : Except Str Str) : List LogCall :=
  log_fmt_calls Level.ERROR loc fmtResult

/-- Source `header(...)` with at least one argument: its own `std::vformat` runs
before and outside `log_fmt`'s try/catch, so a throw there (`.error`)
propagates to the caller; on success the banner is built (when `HEADER`
is enabled) and handed to `log_fmt` at `HEADER`, whose inner no-argument
`vformat` outcome is `vfmtPlain`. -/
def header_calls (headerEnabled : Bool) (fmtArgsResult : Except Str Str)
    (vfmtPlain : Str → Except Str Str) (loc : Str) : Except Str (List LogCall) :=
  match fmtArgsResult with
  | .error e => .error e
  | .ok message =>
      let fm := if headerEnabled then headerFormatted message else []
      .ok (log_fmt_calls Level.HEADER loc (vfmtPlain fm))

/-- Source `footer(...)`: as `header_calls`, at `FOOTER`. -/
def footer_calls (footerEnabled : Bool) (fmtArgsResult : Except Str Str)
    (vfmtPlain : Str → Except Str Str) (loc : Str) : Except Str (List LogCall) :=
  match fmtArgsResult with
  | .error e => .error e
  | .ok message =>
      let fm := if footerEnabled then footerFormatted message else []
      .ok (log_fmt_calls Level.FOOTER loc (vfmtPlain fm))

/-- Source `notice(...)`: builds the banner when `NOTICE` is enabled, but the
source's final call is `log_fmt(Level::FOOTER, format.loc,
formatted_message)` — the level handed to the engine is `FOOTER`. -/
def notice_calls (noticeEnabled : Bool) (fmtArgsResult : Except Str Str)
    (vfmtPlain : Str → Except Str Str) (loc : Str) : Except Str (List LogCall) :=
  match fmtArgsResult with
  | .error e => .error e
  | .ok message =>
      let fm := if noticeEnabled then noticeFormatted message else []
      .ok (log_fmt_calls Level.FOOTER loc (vfmtPlain fm))

/-- Modelled from the claim's words (claim C3): the banner "centers the
message between markerCount = 8 repeated marker characters on each side"
within the text budget `totalWidth - 2*markerCount = 24`, "the left
padding being floor of half the remaining space and the right padding
the remainder". -/
def claimCenteredBanner (marker : Char) (msg : Str) : Str :=
  List.replicate 8 marker ++ spaces ((24 - msg.length) / 2) ++ msg ++
    spaces (24 - msg.length - (24 - msg.length) / 2) ++ List.replicate 8 marker

/-- Initial state installed by the `hxLogger` constructor: everything
off, colour on, width 80, full mask, no file. -/
def sInit : LoggerState :=
  { isColor := true, isLogging := false, logConsole := false, logFile := false,
    isDateTime := false, messageWidth := 80, setLevel := 255,
    suppressedUnits := [], flog := { openPath := none, failbit := false } }

/-- Console-only logger with colour off and width 8, used to instantiate
the general theorems on small concrete inputs. -/
def sConsole : LoggerState :=
  { isColor := false, isLogging := true, logConsole := true, logFile := false,
    isDateTime := false, messageWidth := 8, setLevel := 255,
    suppressedUnits := [], flog := { openPath := none, failbit := false } }

/-- Console-and-file logger with colour on and width 8. -/
def sBoth : LoggerState :=
  { isColor := true, isLogging := true, logConsole := true, logFile := true,
    isDateTime := false, messageWidth := 8, setLevel := 255,
    suppressedUnits := [], flog := { openPath := some ("log.txt".data), failbit := false } }

/-- Console logger whose mask enables only `NOTICE` (bit 128). -/
def sNoticeOnly : LoggerState :=
  { isColor := true, isLogging := true, logConsole := true, logFile := false,
    isDateTime := false, messageWidth := 8, setLevel := 128,
    suppressedUnits := [], flog := { openPath := none, failbit := false } }

/-!  Helper lemmas about `stripGo`.  -/

theorem stripGo_false_cons_ne (c : Char) (hc : c ≠ '\x1b') (l : Str) :
    stripGo false (c :: l) = c :: stripGo false l := by
  cases l with
  | nil => simp [stripGo]
  | cons d ds =>
      by_cases hd : d = '['
      · subst hd; simp [stripGo, hc]
      · simp [stripGo, hc, hd]

theorem stripGo_false_of_noEsc (l : Str) (h : '\x1b' ∉ l) : stripGo false l = l := by
  induction l with
  | nil => rfl
  | cons c cs ih =>
      have hc : c ≠ '\x1b' := fun e => h (by simp [e])
      have hcs : '\x1b' ∉ cs := fun m => h (List.mem_cons_of_mem _ m)
      rw [stripGo_false_cons_ne c hc, ih hcs]

theorem stripGo_false_append (a b : Str) (h : '\x1b' ∉ a) :
    stripGo false (a ++ b) = a ++ stripGo false b := by
  induction a with
  | nil => rfl
  | cons c cs ih =>
      have hc : c ≠ '\x1b' := fun e => h (by simp [e])
      have hcs : '\x1b' ∉ cs := fun m => h (List.mem_cons_of_mem _ m)
      rw [List.cons_append, stripGo_false_cons_ne c hc, ih hcs]
      rfl

theorem stripGo_true_skip (code rest : Str) (h : 'm' ∉ code) :
    stripGo true (code ++ 'm' :: rest) = stripGo false rest := by
  induction code with
  | nil => simp [stripGo]
  | cons c cs ih =>
      have hc : c ≠ 'm' := fun e => h (by simp [e])
      have hcs : 'm' ∉ cs := fun m => h (List.mem_cons_of_mem _ m)
      rw [List.cons_append]
      simp only [stripGo, if_neg hc]
      exact ih hcs

theorem stripGo_colorWrap (code txt tail : Str) (hm : 'm' ∉ code) (ht : '\x1b' ∉ txt) :
    stripGo false (colorWrap code txt ++ tail) = txt ++ stripGo false tail := by
  have hshape : colorWrap code txt ++ tail =
      '\x1b' :: '[' :: (code ++ 'm' :: (txt ++ '\x1b' :: '[' :: '0' :: 'm' :: tail)) := by
    simp [colorWrap]
  rw [hshape]
  have h1 : stripGo false
      ('\x1b' :: '[' :: (code ++ 'm' :: (txt ++ '\x1b' :: '[' :: '0' :: 'm' :: tail))) =
      stripGo true (code ++ 'm' :: (txt ++ '\x1b' :: '[' :: '0' :: 'm' :: tail)) := by
    simp [stripGo]
  rw [h1, stripGo_true_skip _ _ hm, stripGo_false_append _ _ ht]
  have h2 : stripGo false ('\x1b' :: '[' :: '0' :: 'm' :: tail) = stripGo false tail := by
    simp [stripGo]
  rw [h2]

theorem stripAnsi_warnType (isC : Bool) (lvl : Level) (tail : Str) :
    stripGo false (warnType isC lvl false ++ tail) =
      warnType isC lvl true ++ stripGo false tail := by
  cases isC with
  | false =>
      cases lvl <;>
        exact stripGo_false_append _ _ (by decide)
  | true =>
      cases lvl with
      | TRACE => simpa [warnType] using
          stripGo_colorWrap ("37;1".data) ((" TRACE".data)) tail (by decide) (by decide)
      | DEBUG => simpa [warnType] using
          stripGo_colorWrap ("36;1".data) ((" DEBUG".data)) tail (by decide) (by decide)
      | INFO => simpa [warnType] using
          stripGo_colorWrap ("32;1".data) (("  INFO".data)) tail (by decide) (by decide)
      | WARN => simpa [warnType] using
          stripGo_colorWrap ("33;1".data) (("  WARN".data)) tail (by decide) (by decide)
      | ERROR => simpa [warnType] using
          stripGo_colorWrap ("31;1".data) ((" ERROR".data)) tail (by decide) (by decide)
      | HEADER => simpa [warnType] using
          stripGo_colorWrap ("37;44;1".data) (("HEADER".data)) tail (by decide) (by decide)
      | FOOTER => simpa [warnType] using
          stripGo_colorWrap ("37;44;1".data) (("FOOTER".data)) tail (by decide) (by decide)
      | NOTICE => simpa [warnType] using
          stripGo_colorWrap ("35;5;208;1".data) (("NOTICE".data)) tail (by decide) (by decide)

theorem stripAnsi_colorWrap (code txt : Str) (hm : 'm' ∉ code) (ht : '\x1b' ∉ txt) :
    stripAnsiColors (colorWrap code txt) = txt := by
  have h := stripGo_colorWrap code txt [] hm ht
  simpa [stripAnsiColors, stripGo] using h

/-!  Claim theorems for the enable/disable API.  -/

/-- Claim C8: `enable()` (`turnDebugOn`) is idempotent — for every pair
of masks `m1, m2`, calling `enable(m1)` then `enable(m2)` without an
intervening `disable()` leaves the whole logger state equal to the state
after `enable(m1)` alone; starting from a disabled state the active mask
after the second call is `m1`, not `m2`. -/
theorem c8_turnDebugOn_idempotent (s : LoggerState) (m1 m2 : Nat) :
    turnDebugOn (turnDebugOn s m1) m2 = turnDebugOn s m1 ∧
    (s.isLogging = false → (turnDebugOn (turnDebugOn s m1) m2).setLevel = m1) := by
  constructor
  · by_cases h : s.isLogging
    · simp [turnDebugOn, h]
    · simp [turnDebugOn, h]
  · intro h
    simp [turnDebugOn, h]

/-- Witness for C8 at the constructor state and masks `3`, `5`. -/
theorem c8_turnDebugOn_idempotent_witness :
    (turnDebugOn (turnDebugOn sInit 3) 5).setLevel = 3 :=
  (c8_turnDebugOn_idempotent sInit 3 5).2 rfl

/-- Claim C10: `isLogLevelEnabled(l)` returns `has_level` of the current
mask and `l` regardless of the master enabled flag — after
`turnDebugOff()` it is unchanged and still true for any level in the
mask, even though every `log()` call then produces no output. -/
theorem c10_isLogLevelEnabled_ignores_master (s : LoggerState) (l : Level)
    (ts msg info : Str) :
    isLogLevelEnabled (turnDebugOff s) l = isLogLevelEnabled s l ∧
    (has_level s.setLevel l = true → isLogLevelEnabled (turnDebugOff s) l = true) ∧
    logOutput (turnDebugOff s) ts msg l info = ([], []) := by
  refine ⟨rfl, fun h => h, ?_⟩
  simp [logOutput, turnDebugOff]

/-- Witness for C10: level `INFO` in the full mask of `sConsole`, after
`turnDebugOff`, is still reported enabled while output is empty. -/
theorem c10_isLogLevelEnabled_ignores_master_witness :
    isLogLevelEnabled (turnDebugOff sConsole) Level.INFO = true ∧
    logOutput (turnDebugOff sConsole) ("T".data) ("hi".data) Level.INFO ("L".data) = ([], []) :=
  ⟨(c10_isLogLevelEnabled_ignores_master sConsole Level.INFO
      ("T".data) ("hi".data) ("L".data)).2.1 (by decide),
   (c10_isLogLevelEnabled_ignores_master sConsole Level.INFO
      ("T".data) ("hi".data) ("L".data)).2.2⟩

/-!  Claim theorems for the file sink.  -/

/-- Counterexample to claim C5 as stated: after a successful
`configureLogFile("A")`, a second `configureLogFile("B")` does not close
or replace the sink — the stream still holds `A` (the C++ `open` on an
already-open `fstream` fails), `B` is not opened, the stream's failbit is
set, and the call still returns `true` even though the open failed. -/
theorem c5_counterexample :
    ((configureLogFile (configureLogFile sInit ("A".data) true).1 ("B".data) true).1.flog
      = { openPath := some ("A".data), failbit := true }) ∧
    ((configureLogFile (configureLogFile sInit ("A".data) true).1 ("B".data) true).2 = true) := by
  decide

/-- Claim C5, amended: `configureLogFile` sets `mLogFile` to `is_open()`
of the stream after the open attempt and returns it (so the invariant
`logFile = is_open` holds after every call); when no file was open the
flag equals the success of opening the new path; when a file was already
open, the old handle stays open, the new path is not opened, the failbit
is set, and the call returns `true` regardless. -/
theorem c5_configureLogFile_amended (s : LoggerState) (path : Str) (ok : Bool) :
    ((configureLogFile s path ok).1.logFile
      = (configureLogFile s path ok).1.flog.openPath.isSome) ∧
    ((configureLogFile s path ok).2 = (configureLogFile s path ok).1.logFile) ∧
    (s.flog.openPath = none →
      ((configureLogFile s path ok).1.flog.openPath.isSome = ok ∧
       (ok = true → (configureLogFile s path ok).1.flog.openPath = some path))) ∧
    (∀ p, s.flog.openPath = some p →
      (configureLogFile s path ok).1.flog.openPath = some p ∧
      (configureLogFile s path ok).1.flog.failbit = true ∧
      (configureLogFile s path ok).2 = true) := by
  refine ⟨by simp [configureLogFile], by simp [configureLogFile], ?_, ?_⟩
  · intro hnone
    cases ok with
    | false => simp [configureLogFile, fstreamOpen, hnone]
    | true => simp [configureLogFile, fstreamOpen, hnone]
  · intro p hp
    simp [configureLogFile, fstreamOpen, hp]

/-- Witness for C5 (amended) at the constructor state: opening `A` with
an agreeable OS succeeds and records the path. -/
theorem c5_configureLogFile_amended_witness :
    (configureLogFile sInit ("A".data) true).1.flog.openPath = some ("A".data) :=
  ((c5_configureLogFile_amended sInit ("A".data) true).2.2.1 rfl).2 rfl

/-!  Claim theorem for the notice entry point.  -/

/-- Claim C2 (code bug): every severity-named entry point hands the
engine the severity it is named after, except `notice`, whose source
gates the banner on `NOTICE` being enabled but then calls
`log_fmt(Level::FOOTER, ...)`.  With a mask enabling only `NOTICE`, the
engine therefore filters the call out and `notice` produces no output at
all, contradicting the function's own `isLogLevelEnabled(Level::NOTICE)`
gate. -/
theorem c2_notice_passes_footer :
    notice_calls true (Except.ok ("hello".data)) Except.ok ("L".data)
      = Except.ok [⟨noticeFormatted ("hello".data), Level.FOOTER, ("L".data)⟩] ∧
    Level.FOOTER ≠ Level.NOTICE ∧
    has_level sNoticeOnly.setLevel Level.NOTICE = true ∧
    logOutput sNoticeOnly ("T".data) (noticeFormatted ("hello".data)) Level.FOOTER ("L".data)
      = ([], []) := by
  refine ⟨rfl, by decide, rfl, by decide⟩

/-!  Claim theorems for the banners.  -/

/-- Counterexample to claim C3 as stated: the message `Hi` fits the
claimed text budget of 24, yet the header banner is not centred between
a run of 8 markers on each side — the source puts markers only on the
left for HEADER (and FOOTER). -/
theorem c3_counterexample :
    ("Hi".data.length ≤ 24) ∧
    stripAnsiColors (headerFormatted ("Hi".data)) =
      (">>>>>>>>           Hi           ".data) ∧
    claimCenteredBanner '>' ("Hi".data) =
      (">>>>>>>>           Hi           >>>>>>>>".data) ∧
    stripAnsiColors (headerFormatted ("Hi".data)) ≠ claimCenteredBanner '>' ("Hi".data) := by
  refine ⟨by decide, by decide, by decide, by decide⟩

/-- Claim C3, amended: for an ESC-free message, the HEADER/FOOTER/NOTICE
banners center the message only when its length is at most
`text_space - 2 = 22` (not the full budget of 24); the centred body is a
left run of 8 markers, then `floor((24 - len) / 2)` spaces, the message,
and the remaining spaces — with a right-hand marker run only for NOTICE
(visible widths 32 and 40 respectively).  When the message is longer the
banner falls back to `markers ++ space ++ message`, again with a
trailing marker run for NOTICE only. -/
theorem c3_banner_amended (msg : Str) (hesc : '\x1b' ∉ msg) :
    (msg.length ≤ 22 →
      stripAnsiColors (headerFormatted msg) =
        List.replicate 8 '>' ++ spaces ((24 - msg.length) / 2) ++ msg ++
          spaces (24 - msg.length - (24 - msg.length) / 2) ∧
      (stripAnsiColors (headerFormatted msg)).length = 32 ∧
      stripAnsiColors (footerFormatted msg) =
        List.replicate 8 '<' ++ spaces ((24 - msg.length) / 2) ++ msg ++
          spaces (24 - msg.length - (24 - msg.length) / 2) ∧
      stripAnsiColors (noticeFormatted msg) =
        List.replicate 8 '#' ++ spaces ((24 - msg.length) / 2) ++ msg ++
          spaces (24 - msg.length - (24 - msg.length) / 2) ++ List.replicate 8 '#' ∧
      (stripAnsiColors (noticeFormatted msg)).length = 40) ∧
    (22 < msg.length →
      stripAnsiColors (headerFormatted msg) = List.replicate 8 '>' ++ ' ' :: msg ∧
      stripAnsiColors (footerFormatted msg) = List.replicate 8 '<' ++ ' ' :: msg ∧
      stripAnsiColors (noticeFormatted msg) =
        List.replicate 8 '#' ++ ' ' :: msg ++ List.replicate 8 '#') := by
  have hbody : '\x1b' ∉ (spaces ((24 - msg.length) / 2) ++ msg ++
      spaces (24 - msg.length - (24 - msg.length) / 2)) := by
    simpa [spaces, List.mem_replicate] using hesc
  constructor
  · intro hle
    have hH : stripAnsiColors (headerFormatted msg) =
        List.replicate 8 '>' ++ spaces ((24 - msg.length) / 2) ++ msg ++
          spaces (24 - msg.length - (24 - msg.length) / 2) := by
      have hdef : headerFormatted msg = colorWrap ("32;1".data)
          (List.replicate 8 '>' ++ (spaces ((24 - msg.length) / 2) ++ msg ++
            spaces (24 - msg.length - (24 - msg.length) / 2))) := by
        simp only [headerFormatted]
        rw [if_neg (by omega)]
        norm_num [List.append_assoc]
      rw [hdef, stripAnsi_colorWrap _ _ (by decide)
        (by simpa [List.mem_replicate] using hbody)]
      simp [List.append_assoc]
    have hF : stripAnsiColors (footerFormatted msg) =
        List.replicate 8 '<' ++ spaces ((24 - msg.length) / 2) ++ msg ++
          spaces (24 - msg.length - (24 - msg.length) / 2) := by
      have hdef : footerFormatted msg = colorWrap ("94;1".data)
          (List.replicate 8 '<' ++ (spaces ((24 - msg.length) / 2) ++ msg ++
            spaces (24 - msg.length - (24 - msg.length) / 2))) := by
        simp only [footerFormatted]
        rw [if_neg (by omega)]
        norm_num [List.append_assoc]
      rw [hdef, stripAnsi_colorWrap _ _ (by decide)
        (by simpa [List.mem_replicate] using hbody)]
      simp [List.append_assoc]
    have hN : stripAnsiColors (noticeFormatted msg) =
        List.replicate 8 '#' ++ spaces ((24 - msg.length) / 2) ++ msg ++
          spaces (24 - msg.length - (24 - msg.length) / 2) ++ List.replicate 8 '#' := by
      have hdef : noticeFormatted msg = colorWrap ("38;5;208;1".data)
          (List.replicate 8 '#' ++ ((spaces ((24 - msg.length) / 2) ++ msg ++
            spaces (24 - msg.length - (24 - msg.length) / 2)) ++ List.replicate 8 '#')) := by
        simp only [noticeFormatted]
        rw [if_neg (by omega)]
        norm_num [List.append_assoc]
      rw [hdef, stripAnsi_colorWrap _ _ (by decide)
        (by simpa [List.mem_replicate] using hbody)]
      simp [List.append_assoc]
    refine ⟨hH, ?_, hF, hN, ?_⟩
    · rw [hH]
      simp [spaces]
      omega
    · rw [hN]
      simp [spaces]
      omega
  · intro hgt
    have hH : stripAnsiColors (headerFormatted msg) = List.replicate 8 '>' ++ ' ' :: msg := by
      have hdef : headerFormatted msg = colorWrap ("32;1".data) ((">>>>>>>> ".data) ++ msg) := by
        simp only [headerFormatted]
        rw [if_pos (by omega)]
      rw [hdef, stripAnsi_colorWrap _ _ (by decide)
        (by simpa [(by decide : '\x1b' ∉ (">>>>>>>> ".data))] using hesc)]
      rw [show (">>>>>>>> ".data) = List.replicate 8 '>' ++ [' '] from by decide,
        List.append_assoc]
      rfl
    have hF : stripAnsiColors (footerFormatted msg) = List.replicate 8 '<' ++ ' ' :: msg := by
      have hdef : footerFormatted msg = colorWrap ("94;1".data) (("<<<<<<<< ".data) ++ msg) := by
        simp only [footerFormatted]
        rw [if_pos (by omega)]
      rw [hdef, stripAnsi_colorWrap _ _ (by decide)
        (by simpa [(by decide : '\x1b' ∉ ("<<<<<<<< ".data))] using hesc)]
      rw [show ("<<<<<<<< ".data) = List.replicate 8 '<' ++ [' '] from by decide,
        List.append_assoc]
      rfl
    have hN : stripAnsiColors (noticeFormatted msg) =
        List.replicate 8 '#' ++ ' ' :: msg ++ List.replicate 8 '#' := by
      have hdef : noticeFormatted msg = colorWrap ("38;5;208;1".data)
          (("######## ".data) ++ msg ++ ("########".data)) := by
        simp only [noticeFormatted]
        rw [if_pos (by omega)]
      rw [hdef, stripAnsi_colorWrap _ _ (by decide)
        (by simpa [(by decide : '\x1b' ∉ ("######## ".data)),
          (by decide : '\x1b' ∉ ("########".data))] using hesc)]
      rw [show ("######## ".data) = List.replicate 8 '#' ++ [' '] from by decide,
        show ("########".data) = List.replicate 8 '#' from by decide,
        List.append_assoc, List.append_assoc]
      rfl
    exact ⟨hH, hF, hN⟩

/-- Witness for C3 (amended) at the message `Hi`: visible banner widths
32 (header) and 40 (notice). -/
theorem c3_banner_amended_witness :
    (stripAnsiColors (headerFormatted ("Hi".data))).length = 32 ∧
    (stripAnsiColors (noticeFormatted ("Hi".data))).length = 40 :=
  ⟨((c3_banner_amended ("Hi".data) (by decide)).1 (by decide)).2.1,
   ((c3_banner_amended ("Hi".data) (by decide)).1 (by decide)).2.2.2.2⟩

/-!  Claim theorems for formatting failures.  -/

/-- Counterexample to claim C7 as stated: a failing argument format in
`header(...)` happens outside `log_fmt`'s try/catch, so the exception
propagates past the logging call instead of becoming an ERROR line. -/
theorem c7_counterexample :
    header_calls true (Except.error ("bad spec".data)) Except.ok ("L".data)
      = Except.error ("bad spec".data) := rfl

/-- Claim C7, amended: for the `log_fmt`-only entry points (trace,
debug, info, warn, error) a formatting failure is caught and converted
into exactly one ERROR-severity engine call whose message carries the
failure description and whose call site is the original one; for the
banner entry points (header, footer, notice) the argument formatting
runs before and outside the try/catch, and the exception propagates to
the caller. -/
theorem c7_format_error_amended (loc e : Str) (en : Bool)
    (vf : Str → Except Str Str) (lvl : Level) :
    log_fmt_calls lvl loc (Except.error e)
      = [⟨("Log formatting error: ".data) ++ e, Level.ERROR, loc⟩] ∧
    trace_calls true loc (Except.error e)
      = [⟨("Log formatting error: ".data) ++ e, Level.ERROR, loc⟩] ∧
    debug_calls true loc (Except.error e)
      = [⟨("Log formatting error: ".data) ++ e, Level.ERROR, loc⟩] ∧
    info_calls loc (Except.error e)
      = [⟨("Log formatting error: ".data) ++ e, Level.ERROR, loc⟩] ∧
    warn_calls loc (Except.error e)
      = [⟨("Log formatting error: ".data) ++ e, Level.ERROR, loc⟩] ∧
    error_calls loc (Except.error e)
      = [⟨("Log formatting error: ".data) ++ e, Level.ERROR, loc⟩] ∧
    header_calls en (Except.error e) vf loc = Except.error e ∧
    footer_calls en (Except.error e) vf loc = Except.error e ∧
    notice_calls en (Except.error e) vf loc = Except.error e :=
  ⟨rfl, rfl, rfl, rfl, rfl, rfl, rfl, rfl, rfl⟩

/-!  Claim theorems for unit suppression.  -/

/-- Claim C4: after `suppress(u)`, every `log()` call whose call-site
descriptor has unit name `u` produces zero output at every severity,
calls whose unit differs are unaffected, and `unsuppress(u)` restores
the behaviour of a logger that never had `u` suppressed. -/
theorem c4_suppress_unit (s : LoggerState) (u ts msg info : Str) (level : Level) :
    (extractUnitName info = u →
      logOutput (suppressUnit s u) ts msg level info = ([], [])) ∧
    (extractUnitName info ≠ u →
      logOutput (suppressUnit s u) ts msg level info = logOutput s ts msg level info) ∧
    (logOutput (unsuppressUnit (suppressUnit s u) u) ts msg level info
      = logOutput (unsuppressUnit s u) ts msg level info) := by
  refine ⟨?_, ?_, ?_⟩
  · intro hu
    by_cases hsl : (s.isLogging && has_level s.setLevel level && (s.logFile || s.logConsole)) = true
    · simp [logOutput, suppressUnit, hsl, hu, List.mem_insert_iff]
    · simp only [Bool.not_eq_true] at hsl
      simp [logOutput, suppressUnit, hsl]
  · intro hu
    by_cases hsl : (s.isLogging && has_level s.setLevel level && (s.logFile || s.logConsole)) = true
    · simp only [logOutput, suppressUnit, hsl]
      have hmem : (extractUnitName info ∈ s.suppressedUnits.insert u)
          = (extractUnitName info ∈ s.suppressedUnits) := by
        simp [List.mem_insert_iff, hu]
      simp [hmem]
    · simp only [Bool.not_eq_true] at hsl
      simp [logOutput, suppressUnit, hsl]
  · have hset : (s.suppressedUnits.insert u).erase u = s.suppressedUnits.erase u := by
      by_cases hm : u ∈ s.suppressedUnits
      · rw [List.insert_of_mem hm]
      · rw [List.insert_of_not_mem hm, List.erase_cons_head,
          List.erase_of_not_mem hm]
    have hstate : unsuppressUnit (suppressUnit s u) u = unsuppressUnit s u := by
      simp [unsuppressUnit, suppressUnit, hset]
    rw [hstate]

/-- Witness for C4 at unit `Net` on `sConsole`: the matching call-site
descriptor `Net.cpp -> f` is silenced, a `Gfx.cpp -> f` one is not. -/
theorem c4_suppress_unit_witness :
    logOutput (suppressUnit sConsole ("Net".data)) ("T".data) ("hi".data)
      Level.INFO ("Net.cpp -> f".data) = ([], []) ∧
    logOutput (suppressUnit sConsole ("Net".data)) ("T".data) ("hi".data)
      Level.INFO ("Gfx.cpp -> f".data)
      = logOutput sConsole ("T".data) ("hi".data) Level.INFO ("Gfx.cpp -> f".data) :=
  ⟨(c4_suppress_unit sConsole ("Net".data) ("T".data) ("hi".data)
      ("Net.cpp -> f".data) Level.INFO).1 (by decide),
   (c4_suppress_unit sConsole ("Net".data) ("T".data) ("hi".data)
      ("Gfx.cpp -> f".data) Level.INFO).2.1 (by decide)⟩

/-!  Unfolding lemmas for the wrap loop and the log paths.  -/

theorem chunkGo_congr (w : Nat) :
    ∀ (f1 f2 : Nat) (s : Str), s.length ≤ f1 → s.length ≤ f2 →
      chunkGo w f1 s = chunkGo w f2 s := by
  intro f1
  induction f1 with
  | zero =>
      intro f2 s h1 h2
      have hs : s = [] := List.eq_nil_of_length_eq_zero (Nat.le_zero.mp h1)
      subst hs
      cases f2 with
      | zero => rfl
      | succ f =>
          simp only [chunkGo]
          rw [if_neg (by simp; omega)]
  | succ f1 ih =>
      intro f2 s h1 h2
      cases f2 with
      | zero =>
          have hs : s = [] := List.eq_nil_of_length_eq_zero (Nat.le_zero.mp h2)
          subst hs
          simp only [chunkGo]
          rw [if_neg (by simp; omega)]
      | succ f2 =>
          simp only [chunkGo]
          by_cases hc : 0 < w ∧ w ≤ s.length
          · rw [if_pos hc, if_pos hc,
              ih f2 (s.drop w) (by simp [List.length_drop]; omega)
                (by simp [List.length_drop]; omega)]
          · rw [if_neg hc, if_neg hc]

theorem chunkLine_unfold (w : Nat) (s : Str) :
    chunkLine w s =
      if 0 < w ∧ w ≤ s.length then s.take w :: chunkLine w (s.drop w) else [s] := by
  by_cases hc : 0 < w ∧ w ≤ s.length
  · rw [if_pos hc]
    unfold chunkLine
    cases hL : s.length with
    | zero => omega
    | succ n =>
        simp only [chunkGo]
        rw [if_pos (by omega)]
        exact congrArg _ (chunkGo_congr w n ((s.drop w).length) (s.drop w)
          (by simp [List.length_drop]; omega) (Nat.le_refl _))
  · rw [if_neg hc]
    unfold chunkLine
    cases hL : s.length with
    | zero => rfl
    | succ n =>
        simp only [chunkGo]
        rw [hL] at hc
        rw [if_neg (by omega)]

theorem chunkLine_short (w : Nat) (s : Str) (h : s.length < w) : chunkLine w s = [s] := by
  rw [chunkLine_unfold, if_neg (by omega)]

theorem logOutput_eq_normal (s : LoggerState) (ts msg info : Str) (level : Level)
    (hsl : (s.isLogging && has_level s.setLevel level && (s.logFile || s.logConsole)) = true)
    (hns : extractUnitName info ∉ s.suppressedUnits)
    (hnb : isBannerLevel level = false) :
    logOutput s ts msg level info =
      ((if s.logConsole then
          (tokenizeLineLength s.messageWidth (tokenizeString msg '\n')).enum.map
            (fun p => normalLine s.messageWidth ts
              (if s.isColor then warnType s.isColor level false
               else warnType s.isColor level true) p.1 p.2 info)
        else []),
       (if s.logFile && s.flog.openPath.isSome then
          (tokenizeLineLength s.messageWidth (tokenizeString msg '\n')).enum.map
            (fun p => normalLine s.messageWidth ts (warnType s.isColor level true)
              p.1 p.2 info)
        else [])) := by
  simp [logOutput, hsl, hns, hnb]

theorem logOutput_eq_banner (s : LoggerState) (ts msg info : Str) (level : Level)
    (hsl : (s.isLogging && has_level s.setLevel level && (s.logFile || s.logConsole)) = true)
    (hns : extractUnitName info ∉ s.suppressedUnits)
    (hb : isBannerLevel level = true) :
    logOutput s ts msg level info =
      ((if s.logConsole then
          [bannerLine ts
            (if s.isColor then warnType s.isColor level false
             else warnType s.isColor level true)
            (msg ++ spaces (s.messageWidth - (stripAnsiColors msg).length)) info]
        else []),
       (if s.logFile && s.flog.openPath.isSome then
          [bannerLine ts (warnType s.isColor level true)
            (setwLeft s.messageWidth (stripAnsiColors msg)) info]
        else [])) := by
  simp [logOutput, hsl, hns, hb]

/-!  Trailing-newline behaviour of `tokenizeString`.  -/

theorem tokGo_nil (d : Char) (acc : Str) :
    tokGo d [] acc = if acc = [] then [] else [acc.reverse] := rfl

theorem tokGo_cons (d c : Char) (cs acc : Str) :
    tokGo d (c :: cs) acc =
      if c = d then acc.reverse :: tokGo d cs [] else tokGo d cs (c :: acc) := rfl

theorem tokGo_append_delim (d : Char) :
    ∀ (l acc : Str), (l = [] → acc ≠ []) → l.getLast? ≠ some d →
      tokGo d (l ++ [d]) acc = tokGo d l acc := by
  intro l
  induction l with
  | nil =>
      intro acc hacc _
      have hne : acc ≠ [] := hacc rfl
      simp [tokGo_nil, tokGo_cons, hne]
  | cons c cs ih =>
      intro acc hacc hlast
      rw [List.cons_append, tokGo_cons, tokGo_cons]
      by_cases hc : c = d
      · rw [if_pos hc, if_pos hc]
        subst hc
        cases cs with
        | nil => simp at hlast
        | cons e es =>
            rw [ih [] (fun h => absurd h (by simp))
              (by simpa [List.getLast?_cons_cons] using hlast)]
      · rw [if_neg hc, if_neg hc]
        exact ih (c :: acc) (fun _ => by simp) (by
          cases cs with
          | nil => simp
          | cons e es => simpa [List.getLast?_cons_cons] using hlast)

/-!  Claim theorems for newline splitting (C9).  -/

/-- Counterexample to claim C9 as stated: at `m = ""` (which passes the
filter of `sConsole`), `log(m ++ "\n")` emits one blank line while
`log(m)` emits none, so the two are not the same. -/
theorem c9_counterexample :
    (logOutput sConsole ("T".data) (([] : Str) ++ ['\n']) Level.INFO ("L".data)).1.length = 1 ∧
    logOutput sConsole ("T".data) ([] : Str) Level.INFO ("L".data) = ([], []) := by
  refine ⟨by decide, by decide⟩

/-- Claim C9, amended: splitting drops exactly one trailing empty
segment, so for a message that is nonempty and does not already end in a
newline, `log(m ++ "\n")` emits the same lines as `log(m)`; `log("")`
emits zero lines to both sinks even though the filter accepted the call;
and interior empty segments are still emitted as blank lines (at `m =
"a\n\nb"` three console lines are emitted).  For `m` empty or ending in
`'\n'`, the appended newline adds one blank line instead. -/
theorem c9_trailing_newline_amended (s : LoggerState) (ts info : Str) (level : Level)
    (hsl : (s.isLogging && has_level s.setLevel level && (s.logFile || s.logConsole)) = true)
    (hns : extractUnitName info ∉ s.suppressedUnits)
    (hnb : isBannerLevel level = false)
    (hw : 1 < s.messageWidth) :
    (∀ msg : Str, msg ≠ [] → msg.getLast? ≠ some '\n' →
      logOutput s ts (msg ++ ['\n']) level info = logOutput s ts msg level info) ∧
    logOutput s ts [] level info = ([], []) ∧
    ((logOutput s ts ("a\n\nb".data) level info).1.length
      = if s.logConsole then 3 else 0) := by
  refine ⟨?_, ?_, ?_⟩
  · intro msg h1 h2
    have htok : tokenizeString (msg ++ ['\n']) '\n' = tokenizeString msg '\n' :=
      tokGo_append_delim '\n' msg [] (fun h => absurd h h1) h2
    rw [logOutput_eq_normal s ts (msg ++ ['\n']) info level hsl hns hnb,
      logOutput_eq_normal s ts msg info level hsl hns hnb, htok]
  · rw [logOutput_eq_normal s ts [] info level hsl hns hnb]
    simp [tokenizeString, tokGo, tokenizeLineLength]
  · have ht : tokenizeString (("a\n\nb".data)) '\n' = [("a".data), [], ("b".data)] := by
      decide
    have hta : chunkLine s.messageWidth ("a".data) = [("a".data)] :=
      chunkLine_short _ _ (by exact hw)
    have htn : chunkLine s.messageWidth ([] : Str) = [([] : Str)] :=
      chunkLine_short _ _ (by simp; omega)
    have htb : chunkLine s.messageWidth ("b".data) = [("b".data)] :=
      chunkLine_short _ _ (by exact hw)
    rw [logOutput_eq_normal s ts _ info level hsl hns hnb]
    cases hcon : s.logConsole with
    | false => simp
    | true =>
        simp only [if_pos rfl]
        simp [ht, tokenizeLineLength, hta, htn, htb, List.enum_length]

/-- Witness for C9 (amended) on `sConsole`: appending a newline to `hi`
changes nothing, the empty message emits nothing, and `a\n\nb` emits
three lines. -/
theorem c9_trailing_newline_amended_witness :
    logOutput sConsole ("T".data) (("hi".data) ++ ['\n']) Level.INFO ("L".data)
      = logOutput sConsole ("T".data) ("hi".data) Level.INFO ("L".data) ∧
    logOutput sConsole ("T".data) [] Level.INFO ("L".data) = ([], []) ∧
    (logOutput sConsole ("T".data) ("a\n\nb".data) Level.INFO ("L".data)).1.length = 3 := by
  have h := c9_trailing_newline_amended sConsole ("T".data) ("L".data) Level.INFO
    (by decide) (by decide) (by decide) (by decide)
  exact ⟨h.1 ("hi".data) (by decide) (by decide), h.2.1, by simpa using h.2.2⟩

/-!  Structure of the width wrap (C1).  -/

theorem chunkLine_split (w r : Nat) (hr0 : 0 < r) (hrw : r < w) :
    ∀ (k : Nat) (seg : Str), seg.length = k * w + r →
      (chunkLine w seg).length = k + 1 ∧
      (∀ i, i < k → ((chunkLine w seg).getD i []).length = w) ∧
      ((chunkLine w seg).getD k []).length = r ∧
      (chunkLine w seg).flatten = seg := by
  intro k
  induction k with
  | zero =>
      intro seg hlen
      rw [Nat.zero_mul, Nat.zero_add] at hlen
      rw [chunkLine_short w seg (by omega)]
      exact ⟨rfl, fun i hi => absurd hi (Nat.not_lt_zero i),
        by simp [List.getD_cons_zero, hlen], by simp⟩
  | succ k ih =>
      intro seg hlen
      have hsm : seg.length = k * w + w + r := by rw [hlen, Nat.succ_mul]
      have hwle : w ≤ seg.length := by
        rw [hsm]
        calc w ≤ k * w + w := Nat.le_add_left w (k * w)
        _ ≤ k * w + w + r := Nat.le_add_right _ r
      have hcond : 0 < w ∧ w ≤ seg.length := ⟨by omega, hwle⟩
      rw [chunkLine_unfold, if_pos hcond]
      have hdrop : (seg.drop w).length = k * w + r := by
        rw [List.length_drop, hsm, Nat.add_right_comm, Nat.add_sub_cancel]
      obtain ⟨ih1, ih2, ih3, ih4⟩ := ih (seg.drop w) hdrop
      refine ⟨by simp [ih1], ?_, ?_, ?_⟩
      · intro i hi
        cases i with
        | zero =>
            simp only [List.getD_cons_zero, List.length_take]
            omega
        | succ i =>
            rw [List.getD_cons_succ]
            exact ih2 i (Nat.lt_of_succ_lt_succ hi)
      · rw [List.getD_cons_succ]
        exact ih3
      · rw [List.flatten_cons, ih4, List.take_append_drop]

theorem chunkLine_mem_length_aux (w : Nat) (hw : 0 < w) :
    ∀ (n : Nat) (s : Str), s.length ≤ n → ∀ t ∈ chunkLine w s, t.length ≤ w := by
  intro n
  induction n with
  | zero =>
      intro s hs t ht
      have hnil : s = [] := List.eq_nil_of_length_eq_zero (Nat.le_zero.mp hs)
      subst hnil
      rw [chunkLine_short w [] (by simp; omega)] at ht
      simp at ht
      simp [ht]
  | succ n ih =>
      intro s hs t ht
      rw [chunkLine_unfold] at ht
      by_cases hc : 0 < w ∧ w ≤ s.length
      · rw [if_pos hc] at ht
        rcases List.mem_cons.mp ht with h | h
        · rw [h, List.length_take]
          omega
        · exact ih (s.drop w) (by rw [List.length_drop]; omega) t h
      · rw [if_neg hc] at ht
        simp at ht
        rw [ht]
        omega

theorem chunkLine_mem_length (w : Nat) (hw : 0 < w) (s t : Str)
    (ht : t ∈ chunkLine w s) : t.length ≤ w :=
  chunkLine_mem_length_aux w hw s.length s (Nat.le_refl _) t ht

theorem tokenizeLineLength_mem_length (w : Nat) (hw : 0 < w) (lst : List Str) (t : Str)
    (ht : t ∈ tokenizeLineLength w lst) : t.length ≤ w := by
  simp only [tokenizeLineLength, List.mem_flatten, List.mem_map] at ht
  obtain ⟨l, ⟨a, ha, rfl⟩, htl⟩ := ht
  exact chunkLine_mem_length w hw a t htl

/-- Claim C1: on the normal path, for every call that passes filtering
and suppression, each newline segment of length `k * messageWidth + r`
(`0 < r < messageWidth`) wraps into exactly `k + 1` segments in order
(the first `k` of width `messageWidth`, the last of length `r`, their
concatenation the segment); one line is emitted per wrapped segment on
each enabled sink, the segment at global index 0 using `": "` and all
later ones `"> "`, each segment left-justified and space-padded to
`messageWidth` inside its line. -/
theorem c1_wrap_and_emit (s : LoggerState) (ts msg info : Str) (level : Level)
    (hsl : (s.isLogging && has_level s.setLevel level && (s.logFile || s.logConsole)) = true)
    (hns : extractUnitName info ∉ s.suppressedUnits)
    (hnb : isBannerLevel level = false)
    (hw : 0 < s.messageWidth) :
    (∀ seg ∈ tokenizeString msg '\n', ∀ k r : Nat, 0 < r → r < s.messageWidth →
      seg.length = k * s.messageWidth + r →
        (chunkLine s.messageWidth seg).length = k + 1 ∧
        (∀ i, i < k →
          ((chunkLine s.messageWidth seg).getD i []).length = s.messageWidth) ∧
        ((chunkLine s.messageWidth seg).getD k []).length = r ∧
        (chunkLine s.messageWidth seg).flatten = seg) ∧
    ((logOutput s ts msg level info).1.length =
      if s.logConsole then
        (tokenizeLineLength s.messageWidth (tokenizeString msg '\n')).length
      else 0) ∧
    ((logOutput s ts msg level info).2.length =
      if s.logFile && s.flog.openPath.isSome then
        (tokenizeLineLength s.messageWidth (tokenizeString msg '\n')).length
      else 0) ∧
    (∀ i tok,
      (tokenizeLineLength s.messageWidth (tokenizeString msg '\n')).get? i = some tok →
        tok.length ≤ s.messageWidth ∧
        (setwLeft s.messageWidth tok).length = s.messageWidth ∧
        (s.logConsole = true →
          (logOutput s ts msg level info).1.get? i =
            some (normalLine s.messageWidth ts
              (if s.isColor then warnType s.isColor level false
               else warnType s.isColor level true) i tok info)) ∧
        ((s.logFile && s.flog.openPath.isSome) = true →
          (logOutput s ts msg level info).2.get? i =
            some (normalLine s.messageWidth ts (warnType s.isColor level true)
              i tok info))) := by
  have hrw := logOutput_eq_normal s ts msg info level hsl hns hnb
  refine ⟨?_, ?_, ?_, ?_⟩
  · intro seg hseg k r hr0 hrw' hlen
    exact chunkLine_split s.messageWidth r hr0 hrw' k seg hlen
  · rw [hrw]
    cases hcon : s.logConsole <;> simp [List.enum_length]
  · rw [hrw]
    cases hfile : (s.logFile && s.flog.openPath.isSome) <;> simp [List.enum_length]
  · intro i tok htok
    have hmem : tok ∈ tokenizeLineLength s.messageWidth (tokenizeString msg '\n') :=
      List.get?_mem htok
    have hlen : tok.length ≤ s.messageWidth :=
      tokenizeLineLength_mem_length s.messageWidth hw _ tok hmem
    refine ⟨hlen, by simp [setwLeft, spaces]; omega, ?_, ?_⟩
    · intro hcon
      rw [hrw]
      simp only [hcon, if_true]
      rw [List.get?_map, List.get?_enum, htok]
      rfl
    · intro hfile
      rw [hrw]
      simp only [hfile, if_true]
      rw [List.get?_map, List.get?_enum, htok]
      rfl

/-- Witness for C1 on `sConsole` (width 8) with a 19-character message
(`k = 2`, `r = 3`): three wrapped segments, the last of length 3, and
three console lines. -/
theorem c1_wrap_and_emit_witness :
    (chunkLine 8 ("aaaaaaaaaaaaaaaaaaa".data)).length = 2 + 1 ∧
    ((chunkLine 8 ("aaaaaaaaaaaaaaaaaaa".data)).getD 2 []).length = 3 ∧
    (logOutput sConsole ("T".data) ("aaaaaaaaaaaaaaaaaaa".data)
      Level.INFO ("L".data)).1.length = 3 := by
  have h := c1_wrap_and_emit sConsole ("T".data) ("aaaaaaaaaaaaaaaaaaa".data)
    ("L".data) Level.INFO (by decide) (by decide) (by decide) (by decide)
  obtain ⟨h1, h2, h3, h4⟩ := h
  have hseg := h1 ("aaaaaaaaaaaaaaaaaaa".data) (by decide) 2 3
    (by decide) (by decide) (by decide)
  refine ⟨hseg.1, hseg.2.2.1, ?_⟩
  rw [h2]
  decide

/-!  Character provenance of the tokenizers (for the round-trip claim).  -/

theorem tokGo_chars (d : Char) :
    ∀ (l acc t : Str), t ∈ tokGo d l acc → ∀ c ∈ t, c ∈ l ∨ c ∈ acc := by
  intro l
  induction l with
  | nil =>
      intro acc t ht c hc
      rw [tokGo_nil] at ht
      by_cases hacc : acc = []
      · rw [if_pos hacc] at ht
        exact absurd ht (List.not_mem_nil t)
      · rw [if_neg hacc] at ht
        simp only [List.mem_singleton] at ht
        right
        rw [ht] at hc
        exact List.mem_reverse.mp hc
  | cons c0 cs ih =>
      intro acc t ht c hc
      rw [tokGo_cons] at ht
      by_cases h0 : c0 = d
      · rw [if_pos h0] at ht
        rcases List.mem_cons.mp ht with h | h
        · right
          rw [h] at hc
          exact List.mem_reverse.mp hc
        · rcases ih [] t h c hc with h1 | h1
          · exact Or.inl (List.mem_cons_of_mem _ h1)
          · exact absurd h1 (List.not_mem_nil c)
      · rw [if_neg h0] at ht
        rcases ih (c0 :: acc) t ht c hc with h1 | h1
        · exact Or.inl (List.mem_cons_of_mem _ h1)
        · rcases List.mem_cons.mp h1 with h2 | h2
          · exact Or.inl (h2 ▸ List.mem_cons_self _ _)
          · exact Or.inr h2

theorem tokenizeString_chars (msg : Str) (d : Char) (t : Str)
    (ht : t ∈ tokenizeString msg d) : ∀ c ∈ t, c ∈ msg := by
  intro c hc
  rcases tokGo_chars d msg [] t ht c hc with h | h
  · exact h
  · exact absurd h (List.not_mem_nil c)

theorem chunkLine_chars_aux (w : Nat) :
    ∀ (n : Nat) (s : Str), s.length ≤ n → ∀ t ∈ chunkLine w s, ∀ c ∈ t, c ∈ s := by
  intro n
  induction n with
  | zero =>
      intro s hs t ht c hc
      have hnil : s = [] := List.eq_nil_of_length_eq_zero (Nat.le_zero.mp hs)
      subst hnil
      have hch : chunkLine w ([] : Str) = [([] : Str)] := rfl
      rw [hch] at ht
      simp only [List.mem_singleton] at ht
      rw [ht] at hc
      exact absurd hc (List.not_mem_nil c)
  | succ n ih =>
      intro s hs t ht c hc
      rw [chunkLine_unfold] at ht
      by_cases hcnd : 0 < w ∧ w ≤ s.length
      · rw [if_pos hcnd] at ht
        rcases List.mem_cons.mp ht with h | h
        · exact List.take_subset w s (h ▸ hc)
        · exact List.drop_subset w s
            (ih (s.drop w) (by rw [List.length_drop]; omega) t h c hc)
      · rw [if_neg hcnd] at ht
        simp only [List.mem_singleton] at ht
        exact ht ▸ hc

theorem tokenizeLineLength_noEsc (w : Nat) (msg : Str) (h : '\x1b' ∉ msg) :
    ∀ t ∈ tokenizeLineLength w (tokenizeString msg '\n'), '\x1b' ∉ t := by
  intro t ht hesc
  simp only [tokenizeLineLength, List.mem_flatten, List.mem_map] at ht
  obtain ⟨l, ⟨seg, hseg, rfl⟩, htl⟩ := ht
  have h1 : '\x1b' ∈ seg :=
    chunkLine_chars_aux w seg.length seg (Nat.le_refl _) t htl '\x1b' hesc
  exact h (tokenizeString_chars msg '\n' seg hseg '\x1b' h1)

/-!  Stripping a formatted line only removes the colour block.  -/

theorem stripGo_warn_block (isC : Bool) (level : Level) (pre tail : Str)
    (hpre : '\x1b' ∉ pre) (htail : '\x1b' ∉ tail) :
    stripAnsiColors (pre ++ warnType isC level false ++ tail)
      = pre ++ warnType isC level true ++ tail := by
  show stripGo false _ = _
  rw [List.append_assoc, stripGo_false_append _ _ hpre, stripAnsi_warnType,
    stripGo_false_of_noEsc _ htail, ← List.append_assoc]

theorem warnType_true_noEsc (isC : Bool) (level : Level) :
    '\x1b' ∉ warnType isC level true := by
  cases isC <;> cases level <;> decide

theorem strip_normalLine (w : Nat) (isC : Bool) (level : Level) (ts : Str) (i : Nat)
    (tok info : Str) (hts : '\x1b' ∉ ts) (htok : '\x1b' ∉ tok) (hinfo : '\x1b' ∉ info) :
    stripAnsiColors (normalLine w ts
      (if isC then warnType isC level false else warnType isC level true) i tok info)
      = normalLine w ts (warnType isC level true) i tok info := by
  have hsep : '\x1b' ∉ (if i = 0 then (": ".data) else ("> ".data)) := by
    by_cases hi : i = 0
    · rw [if_pos hi]; decide
    · rw [if_neg hi]; decide
  have hshape : ∀ lvl : Str, normalLine w ts lvl i tok info =
      (("[".data) ++ ts ++ ("][".data)) ++ lvl ++
        (("]".data) ++ (if i = 0 then (": ".data) else ("> ".data)) ++
          setwLeft w tok ++ ("| ".data) ++ info) := by
    intro lvl
    simp [normalLine, List.append_assoc]
  have hpre : '\x1b' ∉ (("[".data) ++ ts ++ ("][".data)) := by
    simp [List.mem_append, hts, (by decide : ¬('\x1b' ∈ ("[".data))),
      (by decide : ¬('\x1b' ∈ ("][".data)))]
  have htail : '\x1b' ∉ (("]".data) ++ (if i = 0 then (": ".data) else ("> ".data)) ++
      setwLeft w tok ++ ("| ".data) ++ info) := by
    simp [List.mem_append, setwLeft, spaces, List.mem_replicate, hsep, htok, hinfo,
      (by decide : ¬('\x1b' ∈ ("]".data))), (by decide : ¬('\x1b' ∈ ("| ".data)))]
  cases isC with
  | false =>
      rw [if_neg (by simp)]
      have hline : '\x1b' ∉ normalLine w ts (warnType false level true) i tok info := by
        rw [hshape]
        by_cases hi : i = 0 <;>
          simp [hi, List.mem_append, hts, htok, hinfo, setwLeft, spaces,
            List.mem_replicate, warnType_true_noEsc]
      exact stripGo_false_of_noEsc _ hline
  | true =>
      rw [if_pos rfl, hshape, hshape]
      exact stripGo_warn_block true level _ _ hpre htail

theorem strip_bannerLine (isC : Bool) (level : Level) (ts body info : Str)
    (hts : '\x1b' ∉ ts) (hbody : '\x1b' ∉ body) (hinfo : '\x1b' ∉ info) :
    stripAnsiColors (bannerLine ts
      (if isC then warnType isC level false else warnType isC level true) body info)
      = bannerLine ts (warnType isC level true) body info := by
  have hshape : ∀ lvl : Str, bannerLine ts lvl body info =
      (("[".data) ++ ts ++ ("][".data)) ++ lvl ++
        (("]: ".data) ++ body ++ ("| ".data) ++ info) := by
    intro lvl
    simp [bannerLine, List.append_assoc]
  have hpre : '\x1b' ∉ (("[".data) ++ ts ++ ("][".data)) := by
    simp [List.mem_append, hts, (by decide : ¬('\x1b' ∈ ("[".data))),
      (by decide : ¬('\x1b' ∈ ("][".data)))]
  have htail : '\x1b' ∉ (("]: ".data) ++ body ++ ("| ".data) ++ info) := by
    simp [List.mem_append, hbody, hinfo,
      (by decide : ¬('\x1b' ∈ ("]: ".data))), (by decide : ¬('\x1b' ∈ ("| ".data)))]
  cases isC with
  | false =>
      rw [if_neg (by simp)]
      have hline : '\x1b' ∉ bannerLine ts (warnType false level true) body info := by
        rw [hshape]
        simp [List.mem_append, hts, hbody, hinfo, warnType_true_noEsc]
      exact stripGo_false_of_noEsc _ hline
  | true =>
      rw [if_pos rfl, hshape, hshape]
      exact stripGo_warn_block true level _ _ hpre htail

/-!  Claim theorems for the console/file round trip (C6).  -/

/-- Counterexample to claim C6 as stated: a normal-path message that
itself contains an ANSI sequence.  The file line keeps the raw sequence
in its message field while the stripped console line does not, so the
fields differ (positions 13..20 are the width-8 message field of
`sBoth`). -/
theorem c6_counterexample :
    ((logOutput sBoth ("T".data) ("\x1b[0m".data) Level.INFO ("L".data)).1.map
        stripAnsiColors
      ≠ (logOutput sBoth ("T".data) ("\x1b[0m".data) Level.INFO ("L".data)).2) ∧
    ((((logOutput sBoth ("T".data) ("\x1b[0m".data) Level.INFO ("L".data)).1.map
        stripAnsiColors).headD []).drop 13).take 8
      ≠ ((((logOutput sBoth ("T".data) ("\x1b[0m".data) Level.INFO
        ("L".data)).2).headD []).drop 13).take 8 := by
  refine ⟨by decide, by decide⟩

/-- Claim C6, amended: for a call that writes to both sinks, if the
message (and the timestamp and call-site strings) contain no ESC
character, then stripping the ANSI colours from each console line yields
exactly the corresponding file line — message fields included — on both
the normal and the banner path.  When the message itself contains ANSI
sequences the file keeps them on the normal path while the stripped
console line does not, so the claim holds only for ESC-free messages
there. -/
theorem c6_roundtrip_amended (s : LoggerState) (ts msg info : Str) (level : Level)
    (hts : '\x1b' ∉ ts) (hmsg : '\x1b' ∉ msg) (hinfo : '\x1b' ∉ info)
    (hcon : s.logConsole = true)
    (hfile : (s.logFile && s.flog.openPath.isSome) = true) :
    (logOutput s ts msg level info).1.map stripAnsiColors
      = (logOutput s ts msg level info).2 := by
  by_cases hsl : (s.isLogging && has_level s.setLevel level && (s.logFile || s.logConsole)) = true
  · by_cases hns : extractUnitName info ∈ s.suppressedUnits
    · have hz : logOutput s ts msg level info = ([], []) := by
        simp [logOutput, hsl, hns]
      rw [hz]
      rfl
    · by_cases hb : isBannerLevel level = true
      · rw [logOutput_eq_banner s ts msg info level hsl hns hb]
        have hs : stripAnsiColors msg = msg := stripGo_false_of_noEsc msg hmsg
        simp only [hcon, hfile, if_true, hs]
        simp only [List.map_cons, List.map_nil]
        congr 1
        exact strip_bannerLine s.isColor level ts (setwLeft s.messageWidth msg) info hts
          (by simp [setwLeft, spaces, List.mem_append, List.mem_replicate, hmsg]) hinfo
      · simp only [Bool.not_eq_true] at hb
        rw [logOutput_eq_normal s ts msg info level hsl hns hb]
        simp only [hcon, hfile, if_true]
        rw [List.map_map]
        apply List.map_congr_left
        intro p hp
        obtain ⟨i, tok⟩ := p
        have hmem : tok ∈ tokenizeLineLength s.messageWidth (tokenizeString msg '\n') := by
          obtain ⟨hi, htk⟩ := List.mem_enum hp
          rw [htk]
          exact List.getElem_mem hi
        have htokE : '\x1b' ∉ tok :=
          tokenizeLineLength_noEsc s.messageWidth msg hmsg tok hmem
        exact strip_normalLine s.messageWidth s.isColor level ts i tok info hts htokE hinfo
  · simp only [Bool.not_eq_true] at hsl
    have hz : logOutput s ts msg level info = ([], []) := by
      simp [logOutput, hsl]
    rw [hz]
    rfl

/-- Witness for C6 (amended) on `sBoth` (colour on) with the two-line
message `hi\nyo`. -/
theorem c6_roundtrip_amended_witness :
    (logOutput sBoth ("T".data) ("hi\nyo".data) Level.INFO ("L".data)).1.map stripAnsiColors
      = (logOutput sBoth ("T".data) ("hi\nyo".data) Level.INFO ("L".data)).2 :=
  c6_roundtrip_amended sBoth ("T".data) ("hi\nyo".data) ("L".data) Level.INFO
    (by decide) (by decide) (by decide) (by decide) (by decide)

end HelixLog
